import Mathlib

/-!
Shallow embedding of the proxy-verify repository (src/verify.js):
the proxy-list parser of readProxies, the per-probe outcome latch of
verifyProxy, the master dispatch loop of startWorkers/dispatchRequest, the
result aggregation of the verifiedProxy message handler, and the numeric
option handling of the Verify constructor.
-/

namespace ProxyVerify

/-! ### Character and string helpers (JavaScript primitive behaviour) -/

/-- The character class [0-9] of the validation regex: code points 48..57. -/
def isDigitChar (c : Char) : Bool :=
  decide (48 ≤ c.toNat) && decide (c.toNat ≤ 57)

/-- Whitespace removed by String.prototype.trim (the forms that occur in
proxy-list files: space, tab, carriage return, newline). -/
def isSpaceChar (c : Char) : Bool :=
  c == ' ' || c == '\t' || c == '\r' || c == '\n'

/-- String.prototype.trim: strip whitespace from both ends. -/
def jsTrim (s : String) : String :=
  String.mk (((s.data.dropWhile isSpaceChar).reverse.dropWhile isSpaceChar).reverse)

/-- String.prototype.split with a one-character separator: the list of chunks
between occurrences of the separator (split of the empty string is [""]). -/
def splitChar (sep : Char) : List Char → List (List Char)
  | [] => [[]]
  | c :: cs =>
    let r := splitChar sep cs
    if c = sep then [] :: r
    else
      match r with
      | [] => [[c]]
      | x :: xs => (c :: x) :: xs

def jsSplit (sep : Char) (s : String) : List String :=
  (splitChar sep s.data).map String.mk

/-- Numeric value of a decimal digit string, used to state range properties
of octets and ports. -/
def digitsToNat (cs : List Char) : Nat :=
  cs.foldl (fun a c => a * 10 + (c.toNat - 48)) 0

/-- One octet group of the validation regex of readProxies (verify.js line
409), the alternation (25[0-5]|2[0-4][0-9]|[01]?[0-9][0-9]?), analysed by
match length: a 3-character match is 25[0-5] or 2[0-4][0-9] or [01][0-9][0-9];
a 2-character match of the third alternative is [01][0-9] (optional group
present) or [0-9][0-9] (optional group absent); a 1-character match is [0-9].
Code points: 48 is the character 0, 49 is 1, 50 is 2, 52 is 4, 53 is 5. -/
def matchOctet : List Char → Bool
  | [a] => isDigitChar a
  | [a, b] =>
    ((decide (a.toNat = 48) || decide (a.toNat = 49)) && isDigitChar b) ||
    (isDigitChar a && isDigitChar b)
  | [a, b, c] =>
    (decide (a.toNat = 50) && decide (b.toNat = 53) &&
      (decide (48 ≤ c.toNat) && decide (c.toNat ≤ 53))) ||
    (decide (a.toNat = 50) && (decide (48 ≤ b.toNat) && decide (b.toNat ≤ 52)) &&
      isDigitChar c) ||
    ((decide (a.toNat = 48) || decide (a.toNat = 49)) && isDigitChar b && isDigitChar c)
  | _ => false

/-- The port group [0-9]{1,5} of the validation regex. -/
def matchPort (cs : List Char) : Bool :=
  decide (1 ≤ cs.length) && decide (cs.length ≤ 5) && cs.all isDigitChar

/-- Helper for the host part: the dot-split must give exactly four octet
groups, each matching the octet alternation. -/
def matchHostParts : List (List Char) → Bool
  | [a, b, c, d] => matchOctet a && matchOctet b && matchOctet c && matchOctet d
  | _ => false

/-- The host section of the regex: four octet groups joined by literal dots.
None of the octet classes contains a dot. -/
def matchHost (cs : List Char) : Bool :=
  matchHostParts (splitChar '.' cs)

/-- Helper for the whole line: the colon-split must give exactly a host part
and a port part. -/
def matchLineParts : List (List Char) → Bool
  | [ip, port] => matchHost ip && matchPort port
  | _ => false

/-- The anchored validation regex of verify.js line 409 applied to a whole
string. No character class of the regex contains a colon, so a string matches
the anchored pattern exactly when it splits at the colon into a host of four
dot-joined octet groups and a port group. -/
def matchProxyLine (s : String) : Bool :=
  matchLineParts (splitChar ':' s.data)

/-- verify.js lines 407-411: proxies.filter(...). The callback trims a local
copy of the line before testing the regex, but Array.prototype.filter keeps
the ORIGINAL array element, so the untrimmed line is what survives. -/
def validLines (lines : List String) : List String :=
  lines.filter (fun l => matchProxyLine (jsTrim l))

/-- verify.js line 424: Array.from(new Set(proxies)). Set insertion keeps the
first occurrence of each distinct string, in encounter order. -/
def setDedup (seen : List String) : List String → List String
  | [] => []
  | x :: xs => if x ∈ seen then setDedup seen xs else x :: setDedup (x :: seen) xs

/-- The readProxies validation-and-dedup pipeline on the concatenated input
lines (the result of splitting every input file on newlines). -/
def parseProxies (lines : List String) : List String :=
  setDedup [] (validLines lines)

/-- verifyProxy line 301, first component: var [host, port] = proxy.split(':'). -/
def proxyHost (proxy : String) : String := (jsSplit ':' proxy).getD 0 ""

/-- verifyProxy line 301, second component of the destructured split. -/
def proxyPort (proxy : String) : String := (jsSplit ':' proxy).getD 1 ""

/-! ### Probe outcome latch (verifyProxy, verify.js lines 298-347) -/

/-- The asynchronous events that can try to resolve one in-flight probe: the
strict-timeout timer firing (after r.abort()), the response end event, or an
error event on the request (connect failure, reset, or the abort itself). -/
inductive ProbeSignal
  | strictTimeout
  | endResponse (headers : String) (body : String)
  | errorEvent (code : String)

/-- The payload handed to broadcastToMaster for one resolved probe: err is
none exactly on the success path. -/
structure ProbeReport where
  err : Option String
  proxy : String
deriving DecidableEq

/-- What each verifyProxy event handler passes to returnBroadcast. -/
def reportOf (proxy : String) : ProbeSignal → ProbeReport
  | ProbeSignal.strictTimeout => { err := some "STRICT_TIMEOUT", proxy := proxy }
  | ProbeSignal.endResponse _ _ => { err := none, proxy := proxy }
  | ProbeSignal.errorEvent code => { err := some code, proxy := proxy }

/-- The returnBroadcast closure (verify.js lines 304-310) folded over the
sequence of signals that arrive for one probe: the boolean is the captured
returned flag; once it is set every later signal is dropped. The result is
the list of reports actually broadcast to the master. -/
def latchSignals (proxy : String) : Bool → List ProbeSignal → List ProbeReport
  | _, [] => []
  | true, _ :: rest => latchSignals proxy true rest
  | false, s :: rest => reportOf proxy s :: latchSignals proxy true rest

/-- All outcome reports produced by one call of verifyProxy whose in-flight
attempt observes the given signal sequence (returned starts false). -/
def probeOutcomes (proxy : String) (sigs : List ProbeSignal) : List ProbeReport :=
  latchSignals proxy false sigs

/-! ### Constructor option handling (Verify constructor, verify.js 65-119) -/

/-- Lines 70-73: this.workers = options.workers or the cpu count, then capped
at the hard limit 4. A none models an absent (or falsy) option. -/
def effectiveWorkers (optWorkers : Option Nat) (cpus : Nat) : Nat :=
  let w := optWorkers.getD cpus
  if w > 4 then 4 else w

/-- Line 75 and lines 98-100: this.concurrentRequests = options value or
workers * 30, then raised to the worker count when it is smaller. -/
def effectiveConcurrent (optWorkers optConc : Option Nat) (cpus : Nat) : Nat :=
  let w := effectiveWorkers optWorkers cpus
  let c := optConc.getD (w * 30)
  if w > c then w else c

/-- Line 88: this.strictEnforceTimeout = options.strictEnforceTimeout with a
JavaScript or-default of true. A none models an absent option; some b models
a boolean value supplied by the caller. -/
def strictEnforceTimeout (opt : Option Bool) : Bool :=
  match opt with
  | none => true
  | some b => b || true

/-- verifyProxy lines 311-316: the unconditional abort timer is installed
exactly when this.strictEnforceTimeout is truthy. -/
def abortTimerArmed (opt : Option Bool) : Bool :=
  strictEnforceTimeout opt

/-! ### Dispatcher and aggregator (startWorkers, dispatchRequest and the
verifiedProxy message handler of main) -/

/-- One verifiedProxy message from a worker: err is none on success; latency
is the elapsed time the master derives from the duration field. -/
structure ProbeMsg where
  proxy : String
  err : Option String
  latency : Nat
deriving DecidableEq

/-- The master-side mutable state: _proxies (the waiting queue), the list of
candidates handed to workers so far in dispatch order, and the _stats
counters together with _verifiedProxies and _stats.responses. -/
structure RunState where
  queue : List String
  issued : List String
  total : Nat
  done : Nat
  good : Nat
  bad : Nat
  verified : List String
  responses : List Nat
  finished : Bool

/-- Probes currently in flight: messages sent to workers minus outcomes
received back. -/
def inFlight (st : RunState) : Nat := st.issued.length - st.done

/-- The while loop of startWorkers (verify.js 284-290): with the given number
of free slots, repeatedly shift a proxy off the front of the queue and hand
it to a worker, until slots or proxies run out. Returns the dispatched
prefix (in order) and the rest of the queue. -/
def startLoop : Nat → List String → List String × List String
  | 0, q => ([], q)
  | _ + 1, [] => ([], [])
  | n + 1, p :: q =>
    let r := startLoop n q
    (p :: r.1, r.2)

/-- The readProxies event handler of main (verify.js 236-242): clamp
concurrentRequests down to the number of proxies before starting workers. -/
def clampConcurrency (c n : Nat) : Nat := if c > n then n else c

/-- State right after startWorkers ran on the parsed proxy list with the
(already clamped) concurrency limit c: _stats.total is the list length and
min c n probes have been dispatched off the front. -/
def initState (c : Nat) (proxies : List String) : RunState :=
  { queue := (startLoop (clampConcurrency c proxies.length) proxies).2
    issued := (startLoop (clampConcurrency c proxies.length) proxies).1
    total := proxies.length
    done := 0
    good := 0
    bad := 0
    verified := []
    responses := []
    finished := false }

/-- First half of the verifiedProxy message handler (verify.js 162-197):
_stats.done++, then on success push the proxy onto _verifiedProxies, bump
_stats.good and record the latency; on failure bump _stats.bad. -/
def recordOutcome (st : RunState) (m : ProbeMsg) : RunState :=
  if m.err.isNone then
    { st with
      done := st.done + 1
      good := st.good + 1
      verified := st.verified ++ [m.proxy]
      responses := st.responses ++ [m.latency] }
  else
    { st with done := st.done + 1, bad := st.bad + 1 }

/-- Second half of the handler (verify.js 198-227): when done reaches total,
broadcast shutdown and finalize; otherwise dispatchRequest, which shifts the
next proxy off the queue (if any) and sends it to the freed worker. -/
def afterRecord (st : RunState) : RunState :=
  if st.done = st.total then { st with finished := true }
  else
    match st.queue with
    | [] => st
    | p :: rest => { st with queue := rest, issued := st.issued ++ [p] }

/-- Processing of one verifiedProxy message by the master. -/
def step (st : RunState) (m : ProbeMsg) : RunState :=
  afterRecord (recordOutcome st m)

/-- A run: start the workers on the parsed list, then process the stream of
probe resolutions in completion order. -/
def run (c : Nat) (proxies : List String) (msgs : List ProbeMsg) : RunState :=
  msgs.foldl step (initState c proxies)

/-- What the master does on reaching done == total (verify.js 198-224): with
no good proxy it only logs a non-fatal message and skips saveProxies;
otherwise it computes the mean of _stats.responses over _stats.good and
writes _verifiedProxies (joined by newlines) via saveProxies. -/
inductive FinalAction
  | noneVerified
  | saved (avg : ℚ) (fileLines : List String)
deriving DecidableEq

def finalize (st : RunState) : FinalAction :=
  if st.good < 1 then FinalAction.noneVerified
  else
    FinalAction.saved ((st.responses.map (Nat.cast : Nat → ℚ)).sum / (st.good : ℚ))
      st.verified

/-- The successful resolutions of a message stream, in completion order. -/
def successes (msgs : List ProbeMsg) : List ProbeMsg :=
  msgs.filter (fun m => m.err.isNone)

/-! ### Run startup and the only run-level failure (main lines 236-247,
readProxies lines 368-432) -/

/-- Result of readProxies: unreadable when fs.existsSync fails (the function
logs an error and returns false), otherwise the parsed candidate list is
emitted. A none input models a missing file or directory. -/
inductive ReadResult
  | unreadable
  | loaded (candidates : List String)

def readProxiesRun (input : Option (List String)) : ReadResult :=
  match input with
  | none => ReadResult.unreadable
  | some lines => ReadResult.loaded (parseProxies lines)

/-- main line 245-246: if (!this.readProxies()) process.exit() — the only
run-level abort. -/
def runFails (input : Option (List String)) : Bool :=
  match readProxiesRun input with
  | ReadResult.unreadable => true
  | ReadResult.loaded _ => false

/-- Number of probes dispatched at startup for the given input. -/
def probesStarted (c : Nat) (input : Option (List String)) : Nat :=
  match readProxiesRun input with
  | ReadResult.unreadable => 0
  | ReadResult.loaded ps => (initState c ps).issued.length

/-! ### The wire request (verifyProxy lines 298-327) -/

/-- The characters after the first occurrence of the double slash of the
scheme separator. -/
def afterDoubleSlash : List Char → List Char
  | '/' :: '/' :: rest => rest
  | _ :: rest => afterDoubleSlash rest
  | [] => []

/-- url.parse(u).hostname for the http URLs the script targets: the
authority characters up to the first slash, colon, question mark or hash. -/
def urlHostname (u : String) : String :=
  String.mk ((afterDoubleSlash u.data).takeWhile
    (fun c => !(c == '/' || c == ':' || c == '?' || c == '#')))

/-- url.parse(u).path for the same URLs: everything from the first slash
after the authority. -/
def urlPath (u : String) : String :=
  String.mk ((afterDoubleSlash u.data).dropWhile (fun c => c != '/'))

/-- The options object handed to http.get (verify.js 318-326): connection
host and port are the two halves of proxy.split(':'), the request-line path
is set to the WHOLE target url string, and the Host header to the parsed
hostname of the target url. -/
structure HttpRequest where
  host : String
  port : String
  method : String
  path : String
  hostHeader : String
deriving DecidableEq

def buildRequest (targetUrl proxy : String) : HttpRequest :=
  { host := proxyHost proxy
    port := proxyPort proxy
    method := "GET"
    path := targetUrl
    hostHeader := urlHostname targetUrl }

/-! ### Lemmas about the parser -/

lemma setDedup_sublist (seen xs : List String) :
    List.Sublist (setDedup seen xs) xs := by
  induction xs generalizing seen with
  | nil => simp [setDedup]
  | cons x xs ih =>
    unfold setDedup
    split
    · exact List.Sublist.cons x (ih seen)
    · exact List.Sublist.cons₂ x (ih (x :: seen))

lemma setDedup_nodup (seen xs : List String) :
    (setDedup seen xs).Nodup ∧ ∀ y ∈ setDedup seen xs, y ∉ seen := by
  induction xs generalizing seen with
  | nil => simp [setDedup]
  | cons x xs ih =>
    unfold setDedup
    split
    · exact ih seen
    · next hx =>
      obtain ⟨hnd, hni⟩ := ih (x :: seen)
      refine ⟨List.nodup_cons.mpr ⟨fun hmem => ?_, hnd⟩, ?_⟩
      · exact (hni x hmem) (List.mem_cons_self x seen)
      · intro y hy
        rcases List.mem_cons.mp hy with rfl | hy'
        · exact hx
        · intro hseen
          exact (hni y hy') (List.mem_cons_of_mem x hseen)

lemma mem_parseProxies_valid {lines : List String} {p : String}
    (hp : p ∈ parseProxies lines) : matchProxyLine (jsTrim p) = true := by
  have h1 : p ∈ validLines lines :=
    (setDedup_sublist [] (validLines lines)).subset hp
  exact (List.mem_filter.mp h1).2

lemma isDigitChar_bounds {c : Char} (h : isDigitChar c = true) :
    48 ≤ c.toNat ∧ c.toNat ≤ 57 := by
  simpa [isDigitChar, Bool.and_eq_true, decide_eq_true_eq] using h

lemma foldl_digits_lt (cs : List Char) (h : cs.all isDigitChar = true) :
    ∀ acc : Nat,
      cs.foldl (fun a c => a * 10 + (c.toNat - 48)) acc < (acc + 1) * 10 ^ cs.length := by
  induction cs with
  | nil =>
    intro acc
    simp only [List.foldl_nil, List.length_nil, pow_zero, mul_one]
    exact Nat.lt_succ_self acc
  | cons c cs ih =>
    intro acc
    rw [List.all_cons, Bool.and_eq_true] at h
    obtain ⟨hc, hcs⟩ := h
    obtain ⟨h1, h2⟩ := isDigitChar_bounds hc
    have hub : acc * 10 + (c.toNat - 48) + 1 ≤ (acc + 1) * 10 := by omega
    calc (c :: cs).foldl (fun a c => a * 10 + (c.toNat - 48)) acc
        = cs.foldl (fun a c => a * 10 + (c.toNat - 48)) (acc * 10 + (c.toNat - 48)) := rfl
      _ < (acc * 10 + (c.toNat - 48) + 1) * 10 ^ cs.length := ih hcs _
      _ ≤ ((acc + 1) * 10) * 10 ^ cs.length := Nat.mul_le_mul_right _ hub
      _ = (acc + 1) * 10 ^ (c :: cs).length := by rw [List.length_cons]; ring

lemma matchPort_le {cs : List Char} (h : matchPort cs = true) :
    digitsToNat cs ≤ 99999 := by
  rw [matchPort, Bool.and_eq_true, Bool.and_eq_true] at h
  obtain ⟨⟨_, h2⟩, h3⟩ := h
  rw [decide_eq_true_eq] at h2
  have hlt := foldl_digits_lt cs h3 0
  have hpow : (10 : Nat) ^ cs.length ≤ 10 ^ 5 := Nat.pow_le_pow_right (by norm_num) h2
  have h5 : (10 : Nat) ^ 5 = 100000 := by norm_num
  unfold digitsToNat
  omega

lemma matchOctet_le {cs : List Char} (h : matchOctet cs = true) :
    digitsToNat cs ≤ 255 := by
  rcases cs with _ | ⟨a, _ | ⟨b, _ | ⟨c, _ | ⟨d, rest⟩⟩⟩⟩
  · simp [matchOctet] at h
  · have := isDigitChar_bounds h
    simp only [digitsToNat, List.foldl]
    omega
  · simp only [matchOctet, isDigitChar, Bool.or_eq_true, Bool.and_eq_true,
      decide_eq_true_eq] at h
    simp only [digitsToNat, List.foldl]
    omega
  · simp only [matchOctet, isDigitChar, Bool.or_eq_true, Bool.and_eq_true,
      decide_eq_true_eq] at h
    simp only [digitsToNat, List.foldl]
    omega
  · simp [matchOctet] at h

lemma matchProxyLine_parts {s : String} (h : matchProxyLine s = true) :
    ∃ ip port, splitChar ':' s.data = [ip, port] ∧
      (∃ a b c d, splitChar '.' ip = [a, b, c, d] ∧
        matchOctet a = true ∧ matchOctet b = true ∧ matchOctet c = true ∧
        matchOctet d = true) ∧
      matchPort port = true := by
  unfold matchProxyLine at h
  rcases hsp : splitChar ':' s.data with _ | ⟨ip, _ | ⟨port, _ | ⟨x, r⟩⟩⟩ <;>
    rw [hsp] at h
  · simp [matchLineParts] at h
  · simp [matchLineParts] at h
  · rw [show matchLineParts [ip, port] = (matchHost ip && matchPort port) from rfl,
      Bool.and_eq_true] at h
    obtain ⟨hip, hport⟩ := h
    refine ⟨ip, port, rfl, ?_, hport⟩
    unfold matchHost at hip
    rcases hip4 : splitChar '.' ip with _ | ⟨a, _ | ⟨b, _ | ⟨c, _ | ⟨d, _ | ⟨e, r⟩⟩⟩⟩⟩ <;>
      rw [hip4] at hip
    · simp [matchHostParts] at hip
    · simp [matchHostParts] at hip
    · simp [matchHostParts] at hip
    · simp [matchHostParts] at hip
    · rw [show matchHostParts [a, b, c, d] =
          (matchOctet a && matchOctet b && matchOctet c && matchOctet d) from rfl,
        Bool.and_eq_true, Bool.and_eq_true, Bool.and_eq_true] at hip
      exact ⟨a, b, c, d, rfl, hip.1.1.1, hip.1.1.2, hip.1.2, hip.2⟩
    · simp [matchHostParts] at hip
  · simp [matchLineParts] at h

/-! ### Lemmas about the probe latch -/

lemma latchSignals_latched (proxy : String) (sigs : List ProbeSignal) :
    latchSignals proxy true sigs = [] := by
  induction sigs with
  | nil => rfl
  | cons s rest ih =>
    rw [show latchSignals proxy true (s :: rest) = latchSignals proxy true rest from rfl]
    exact ih

/-! ### Lemmas about the dispatcher state machine -/

lemma startLoop_eq (n : Nat) (l : List String) :
    startLoop n l = (l.take n, l.drop n) := by
  induction n generalizing l with
  | zero => simp [startLoop]
  | succ n ih =>
    cases l with
    | nil => simp [startLoop]
    | cons p q => simp [startLoop, ih]

lemma clampConcurrency_eq_min (c n : Nat) : clampConcurrency c n = min c n := by
  unfold clampConcurrency
  split <;> omega

lemma recordOutcome_done (st : RunState) (m : ProbeMsg) :
    (recordOutcome st m).done = st.done + 1 := by
  unfold recordOutcome
  split <;> rfl

lemma recordOutcome_total (st : RunState) (m : ProbeMsg) :
    (recordOutcome st m).total = st.total := by
  unfold recordOutcome
  split <;> rfl

lemma recordOutcome_queue (st : RunState) (m : ProbeMsg) :
    (recordOutcome st m).queue = st.queue := by
  unfold recordOutcome
  split <;> rfl

lemma recordOutcome_issued (st : RunState) (m : ProbeMsg) :
    (recordOutcome st m).issued = st.issued := by
  unfold recordOutcome
  split <;> rfl

lemma recordOutcome_good (st : RunState) (m : ProbeMsg) :
    (recordOutcome st m).good = if m.err.isNone then st.good + 1 else st.good := by
  unfold recordOutcome
  split <;> simp_all

lemma recordOutcome_bad (st : RunState) (m : ProbeMsg) :
    (recordOutcome st m).bad = if m.err.isNone then st.bad else st.bad + 1 := by
  unfold recordOutcome
  split <;> simp_all

lemma recordOutcome_verified (st : RunState) (m : ProbeMsg) :
    (recordOutcome st m).verified =
      st.verified ++ (if m.err.isNone then [m.proxy] else []) := by
  unfold recordOutcome
  split <;> simp_all

lemma recordOutcome_responses (st : RunState) (m : ProbeMsg) :
    (recordOutcome st m).responses =
      st.responses ++ (if m.err.isNone then [m.latency] else []) := by
  unfold recordOutcome
  split <;> simp_all

lemma afterRecord_done (st : RunState) : (afterRecord st).done = st.done := by
  unfold afterRecord
  split
  · rfl
  · cases hq : st.queue <;> rfl

lemma afterRecord_total (st : RunState) : (afterRecord st).total = st.total := by
  unfold afterRecord
  split
  · rfl
  · cases hq : st.queue <;> rfl

lemma afterRecord_good (st : RunState) : (afterRecord st).good = st.good := by
  unfold afterRecord
  split
  · rfl
  · cases hq : st.queue <;> rfl

lemma afterRecord_bad (st : RunState) : (afterRecord st).bad = st.bad := by
  unfold afterRecord
  split
  · rfl
  · cases hq : st.queue <;> rfl

lemma afterRecord_verified (st : RunState) : (afterRecord st).verified = st.verified := by
  unfold afterRecord
  split
  · rfl
  · cases hq : st.queue <;> rfl

lemma afterRecord_responses (st : RunState) : (afterRecord st).responses = st.responses := by
  unfold afterRecord
  split
  · rfl
  · cases hq : st.queue <;> rfl

lemma step_done (st : RunState) (m : ProbeMsg) : (step st m).done = st.done + 1 := by
  unfold step
  rw [afterRecord_done, recordOutcome_done]

lemma step_good (st : RunState) (m : ProbeMsg) :
    (step st m).good = if m.err.isNone then st.good + 1 else st.good := by
  unfold step
  rw [afterRecord_good, recordOutcome_good]

lemma step_bad (st : RunState) (m : ProbeMsg) :
    (step st m).bad = if m.err.isNone then st.bad else st.bad + 1 := by
  unfold step
  rw [afterRecord_bad, recordOutcome_bad]

lemma step_verified (st : RunState) (m : ProbeMsg) :
    (step st m).verified = st.verified ++ (if m.err.isNone then [m.proxy] else []) := by
  unfold step
  rw [afterRecord_verified, recordOutcome_verified]

lemma step_responses (st : RunState) (m : ProbeMsg) :
    (step st m).responses = st.responses ++ (if m.err.isNone then [m.latency] else []) := by
  unfold step
  rw [afterRecord_responses, recordOutcome_responses]

/-- Aggregation behaviour of a message stream over any starting state: done
counts every resolution, good and bad count and partition them, and the
verified and latency lists extend in completion order with exactly the
successful resolutions. -/
lemma run_agg (msgs : List ProbeMsg) (st : RunState) :
    (msgs.foldl step st).done = st.done + msgs.length ∧
    (msgs.foldl step st).good = st.good + (successes msgs).length ∧
    (msgs.foldl step st).bad = st.bad + (msgs.filter (fun m => !m.err.isNone)).length ∧
    (msgs.foldl step st).verified = st.verified ++ (successes msgs).map ProbeMsg.proxy ∧
    (msgs.foldl step st).responses = st.responses ++ (successes msgs).map ProbeMsg.latency := by
  induction msgs generalizing st with
  | nil => simp [successes]
  | cons m ms ih =>
    obtain ⟨i1, i2, i3, i4, i5⟩ := ih (step st m)
    simp only [List.foldl_cons, successes, List.filter_cons] at *
    by_cases hm : m.err.isNone
    · refine ⟨?_, ?_, ?_, ?_, ?_⟩ <;>
        simp [i1, i2, i3, i4, i5, step_done, step_good, step_bad, step_verified,
          step_responses, hm] <;> omega
    · refine ⟨?_, ?_, ?_, ?_, ?_⟩ <;>
        simp [i1, i2, i3, i4, i5, step_done, step_good, step_bad, step_verified,
          step_responses, hm] <;> omega

/-- The scheduling invariant of the master: the candidates handed out so far
followed by the waiting queue is exactly the parsed list; the number handed
out is min(limit + resolved, total). -/
def SchedInv (c : Nat) (ps : List String) (st : RunState) : Prop :=
  st.total = ps.length ∧
  st.done ≤ ps.length ∧
  st.issued ++ st.queue = ps ∧
  st.issued.length = min (clampConcurrency c ps.length + st.done) ps.length

lemma sched_init (c : Nat) (ps : List String) : SchedInv c ps (initState c ps) := by
  refine ⟨rfl, Nat.zero_le _, ?_, ?_⟩
  · simp [initState, startLoop_eq]
  · simp only [initState, startLoop_eq, List.length_take, clampConcurrency_eq_min]
    omega

lemma sched_afterRecord (c : Nat) (ps : List String) (st1 : RunState) (d : Nat)
    (ht : st1.total = ps.length)
    (hiq : st1.issued ++ st1.queue = ps)
    (hlen : st1.issued.length = min (min c ps.length + d) ps.length)
    (hdone : st1.done = d + 1)
    (hd : d < ps.length)
    (hc : 1 ≤ c) :
    SchedInv c ps (afterRecord st1) := by
  have hsum : st1.issued.length + st1.queue.length = ps.length := by
    have hl := congrArg List.length hiq
    simpa [List.length_append] using hl
  unfold afterRecord
  split
  · next hfin =>
    show SchedInv c ps { st1 with finished := true }
    refine ⟨ht, ?_, hiq, ?_⟩
    · show st1.done ≤ ps.length
      omega
    · show st1.issued.length = min (clampConcurrency c ps.length + st1.done) ps.length
      rw [clampConcurrency_eq_min]
      omega
  · next hfin =>
    cases hq : st1.queue with
    | nil =>
      show SchedInv c ps st1
      have hq0 : st1.queue.length = 0 := by rw [hq]; rfl
      refine ⟨ht, by omega, hiq, ?_⟩
      rw [clampConcurrency_eq_min]
      omega
    | cons p rest =>
      show SchedInv c ps { st1 with queue := rest, issued := st1.issued ++ [p] }
      have hql : st1.queue.length = rest.length + 1 := by rw [hq]; rfl
      refine ⟨ht, ?_, ?_, ?_⟩
      · show st1.done ≤ ps.length
        omega
      · show st1.issued ++ [p] ++ rest = ps
        rw [List.append_assoc]
        rw [hq] at hiq
        simpa using hiq
      · show (st1.issued ++ [p]).length =
          min (clampConcurrency c ps.length + st1.done) ps.length
        rw [clampConcurrency_eq_min, List.length_append, List.length_singleton]
        omega

lemma sched_step (c : Nat) (ps : List String) (st : RunState) (m : ProbeMsg)
    (hc : 1 ≤ c) (h : SchedInv c ps st) (hdone : st.done < ps.length) :
    SchedInv c ps (step st m) := by
  obtain ⟨ht, hd, hiq, hlen⟩ := h
  rw [clampConcurrency_eq_min] at hlen
  unfold step
  apply sched_afterRecord c ps _ st.done
  · rw [recordOutcome_total]
    exact ht
  · rw [recordOutcome_issued, recordOutcome_queue]
    exact hiq
  · rw [recordOutcome_issued]
    exact hlen
  · exact recordOutcome_done st m
  · exact hdone
  · exact hc

/-- The scheduling invariant holds all along a run in which no more
resolutions arrive than candidates exist, and done counts the resolutions. -/
lemma run_sched_aux (c : Nat) (ps : List String) (msgs : List ProbeMsg) (st : RunState)
    (hc : 1 ≤ c) (h : SchedInv c ps st) (hlen : st.done + msgs.length ≤ ps.length) :
    SchedInv c ps (msgs.foldl step st) ∧
      (msgs.foldl step st).done = st.done + msgs.length := by
  induction msgs generalizing st with
  | nil => exact ⟨h, rfl⟩
  | cons m ms ih =>
    have hdone : st.done < ps.length := by
      simp only [List.length_cons] at hlen
      omega
    have h1 := sched_step c ps st m hc h hdone
    have h2 : (step st m).done = st.done + 1 := step_done st m
    have h3 : (step st m).done + ms.length ≤ ps.length := by
      rw [h2]
      simp only [List.length_cons] at hlen
      omega
    obtain ⟨ha, hb⟩ := ih (step st m) h1 h3
    refine ⟨ha, ?_⟩
    rw [List.foldl_cons] at *
    rw [hb, h2, List.length_cons]
    omega

/-! ### Further helper lemmas -/

lemma successes_split (msgs : List ProbeMsg) :
    (successes msgs).length + (msgs.filter (fun m => !m.err.isNone)).length
      = msgs.length := by
  induction msgs with
  | nil => rfl
  | cons m ms ih =>
    cases herr : m.err <;> simp [successes, List.filter_cons, herr] at ih ⊢ <;> omega

lemma mk_data (s : String) : String.mk s.data = s := by
  cases s
  rfl

lemma data_append (s t : String) : (s ++ t).data = s.data ++ t.data := by
  cases s
  cases t
  rfl

lemma splitChar_no_sep (sep : Char) (cs : List Char) (h : sep ∉ cs) :
    splitChar sep cs = [cs] := by
  induction cs with
  | nil => rfl
  | cons c cs ih =>
    rw [List.mem_cons, not_or] at h
    simp only [splitChar]
    rw [ih h.2, if_neg (fun hc => h.1 hc.symm)]

lemma splitChar_sep_append (sep : Char) (h p : List Char) (hh : sep ∉ h) :
    splitChar sep (h ++ sep :: p) = h :: splitChar sep p := by
  induction h with
  | nil =>
    show splitChar sep (sep :: p) = [] :: splitChar sep p
    simp only [splitChar, eq_self_iff_true, if_true]
  | cons c h ih =>
    rw [List.mem_cons, not_or] at hh
    have e1 : splitChar sep ((c :: h) ++ sep :: p)
        = splitChar sep (c :: (h ++ sep :: p)) := by
      rw [List.cons_append]
    have e2 : splitChar sep (c :: (h ++ sep :: p))
        = if c = sep then [] :: splitChar sep (h ++ sep :: p)
          else
            match splitChar sep (h ++ sep :: p) with
            | [] => [[c]]
            | x :: xs => (c :: x) :: xs := rfl
    rw [e1, e2, ih hh.2, if_neg (fun hc => hh.1 hc.symm)]

/-! ### Sample data shared by the concrete witnesses -/

def sampleProxies : List String := ["1.1.1.1:80", "2.2.2.2:80", "3.3.3.3:80"]

def sampleProxies2 : List String := ["1.1.1.1:80", "2.2.2.2:80"]

def sampleMsgs : List ProbeMsg :=
  [{ proxy := "1.1.1.1:80", err := none, latency := 5 },
   { proxy := "2.2.2.2:80", err := some "ECONNREFUSED", latency := 7 }]

/-! ### Claim C1 -/

/-- Claim C1: with the dispatcher limit c at least 1 (the readProxies
handler further clamps it to the queue length, as modelled in initState),
startWorkers immediately dispatches exactly min(c, N) candidates off the
front of the queue in input order; each resolution increments done by
exactly one (so done equals the number of resolutions received, is monotone
along any prefix, and reaches N when all resolve) and refills exactly one
slot while the queue is non-empty, so after k resolutions the in-flight
count is min(c, N - k) and the dispatched candidates are the first
min(c + k, N) of the input. -/
theorem dispatcher_inflight (c : Nat) (ps : List String) (msgs : List ProbeMsg)
    (hc : 1 ≤ c) (hm : msgs.length ≤ ps.length) :
    (run c ps msgs).done = msgs.length ∧
    inFlight (run c ps msgs) = min c (ps.length - msgs.length) ∧
    (run c ps msgs).issued = ps.take (min (c + msgs.length) ps.length) ∧
    (run c ps msgs).queue = ps.drop (min (c + msgs.length) ps.length) ∧
    ∀ k, (run c ps (msgs.take k)).done ≤ (run c ps msgs).done := by
  have h0 := sched_init c ps
  have hinit : (initState c ps).done = 0 := rfl
  obtain ⟨hs, hdone⟩ := run_sched_aux c ps msgs (initState c ps) hc h0
    (by rw [hinit]; omega)
  obtain ⟨ht, hd, hiq, hlen⟩ := hs
  rw [clampConcurrency_eq_min] at hlen
  have hdone' : (run c ps msgs).done = msgs.length := by
    show (msgs.foldl step (initState c ps)).done = msgs.length
    rw [hdone, hinit]
    omega
  have hlen2 : (run c ps msgs).issued.length = min (c + msgs.length) ps.length := by
    have he : (run c ps msgs).issued.length =
        min (min c ps.length + (run c ps msgs).done) ps.length := hlen
    rw [hdone'] at he
    omega
  have hiqR : (run c ps msgs).issued ++ (run c ps msgs).queue = ps := hiq
  have hiss : (run c ps msgs).issued = ps.take (min (c + msgs.length) ps.length) := by
    have h1 : ((run c ps msgs).issued ++ (run c ps msgs).queue).take
        (run c ps msgs).issued.length = (run c ps msgs).issued := List.take_left _ _
    rw [hiqR, hlen2] at h1
    exact h1.symm
  have hque : (run c ps msgs).queue = ps.drop (min (c + msgs.length) ps.length) := by
    have h1 : ((run c ps msgs).issued ++ (run c ps msgs).queue).drop
        (run c ps msgs).issued.length = (run c ps msgs).queue := List.drop_left _ _
    rw [hiqR, hlen2] at h1
    exact h1.symm
  refine ⟨hdone', ?_, hiss, hque, ?_⟩
  · unfold inFlight
    rw [hdone', hlen2]
    omega
  · intro k
    have hkle : (initState c ps).done + (msgs.take k).length ≤ ps.length := by
      rw [hinit, List.length_take]
      omega
    obtain ⟨_, hk⟩ := run_sched_aux c ps (msgs.take k) (initState c ps) hc h0 hkle
    show ((msgs.take k).foldl step (initState c ps)).done ≤ (run c ps msgs).done
    rw [hk, hinit, hdone', List.length_take]
    omega

/-- Witness for C1 at a concrete run: three candidates, limit 2, two
resolutions processed. -/
theorem dispatcher_inflight_witness :
    (1 ≤ 2 ∧ sampleMsgs.length ≤ sampleProxies.length) ∧
    (run 2 sampleProxies sampleMsgs).done = sampleMsgs.length ∧
    inFlight (run 2 sampleProxies sampleMsgs) =
      min 2 (sampleProxies.length - sampleMsgs.length) :=
  ⟨⟨by decide, by decide⟩,
   (dispatcher_inflight 2 sampleProxies sampleMsgs (by decide) (by decide)).1,
   (dispatcher_inflight 2 sampleProxies sampleMsgs (by decide) (by decide)).2.1⟩

/-! ### Claim C2 -/

/-- Claim C2: for any one probe, at most one outcome report is ever
broadcast; the first signal to arrive (success, transport error or timeout)
produces the report and every later signal for the same in-flight attempt is
discarded by the returned latch. -/
theorem probe_exactly_once (proxy : String) (sigs : List ProbeSignal) :
    (probeOutcomes proxy sigs).length ≤ 1 ∧
    ∀ s rest, sigs = s :: rest → probeOutcomes proxy sigs = [reportOf proxy s] := by
  constructor
  · cases sigs with
    | nil => simp [probeOutcomes, latchSignals]
    | cons s rest =>
      show (latchSignals proxy false (s :: rest)).length ≤ 1
      rw [show latchSignals proxy false (s :: rest)
          = reportOf proxy s :: latchSignals proxy true rest from rfl,
        latchSignals_latched]
      simp
  · rintro s rest rfl
    show latchSignals proxy false (s :: rest) = [reportOf proxy s]
    rw [show latchSignals proxy false (s :: rest)
        = reportOf proxy s :: latchSignals proxy true rest from rfl,
      latchSignals_latched]

/-- Witness for C2: a strict timeout followed by a late response-end yields
exactly the one timeout report. -/
theorem probe_exactly_once_witness :
    (probeOutcomes "1.2.3.4:8080"
      [ProbeSignal.strictTimeout, ProbeSignal.endResponse "h" "b"]).length ≤ 1 ∧
    probeOutcomes "1.2.3.4:8080"
        [ProbeSignal.strictTimeout, ProbeSignal.endResponse "h" "b"] =
      [reportOf "1.2.3.4:8080" ProbeSignal.strictTimeout] :=
  ⟨(probe_exactly_once "1.2.3.4:8080" _).1,
   (probe_exactly_once "1.2.3.4:8080" _).2 ProbeSignal.strictTimeout _ rfl⟩

/-! ### Claim C3 -/

/-- Claim C3: after every individual resolution (any processed prefix of the
resolution stream is itself such an observation point) the good and bad
counters partition the done counter, and done never exceeds the total
candidate count. -/
theorem aggregator_balance (c : Nat) (ps : List String) (msgs : List ProbeMsg)
    (_hc : 1 ≤ c) (hm : msgs.length ≤ ps.length) :
    (run c ps msgs).good + (run c ps msgs).bad = (run c ps msgs).done ∧
    (run c ps msgs).done ≤ ps.length := by
  obtain ⟨a1, a2, a3, _, _⟩ := run_agg msgs (initState c ps)
  have h1 : (initState c ps).done = 0 := rfl
  have h2 : (initState c ps).good = 0 := rfl
  have h3 : (initState c ps).bad = 0 := rfl
  rw [h1] at a1
  rw [h2] at a2
  rw [h3] at a3
  have hsplit := successes_split msgs
  constructor
  · show (msgs.foldl step (initState c ps)).good + (msgs.foldl step (initState c ps)).bad
      = (msgs.foldl step (initState c ps)).done
    rw [a1, a2, a3]
    omega
  · show (msgs.foldl step (initState c ps)).done ≤ ps.length
    rw [a1]
    omega

/-- Witness for C3 at a concrete run. -/
theorem aggregator_balance_witness :
    (run 2 sampleProxies sampleMsgs).good + (run 2 sampleProxies sampleMsgs).bad
      = (run 2 sampleProxies sampleMsgs).done ∧
    (run 2 sampleProxies sampleMsgs).done ≤ sampleProxies.length :=
  aggregator_balance 2 sampleProxies sampleMsgs (by decide) (by decide)

/-! ### Claim C4 -/

/-- Claim C4 counterexample: the filter callback trims only its local copy,
so a line with leading whitespace whose trimmed form matches the pattern is
kept untrimmed, and the resulting candidate violates the ip:port syntax. -/
theorem readProxies_keeps_untrimmed :
    parseProxies [" 1.2.3.4:8080"] = [" 1.2.3.4:8080"] ∧
    matchProxyLine " 1.2.3.4:8080" = false := by decide

/-- Claim C4 amended: every kept line matches the ip:port pattern after
trimming (the stored string itself may retain surrounding whitespace), and
the result has no duplicate strings under exact equality and preserves the
input order of first occurrences. -/
theorem readProxies_valid_nodup (lines : List String) :
    (∀ p ∈ parseProxies lines, matchProxyLine (jsTrim p) = true) ∧
    (parseProxies lines).Nodup ∧
    List.Sublist (parseProxies lines) lines := by
  refine ⟨fun p hp => mem_parseProxies_valid hp,
    (setDedup_nodup [] (validLines lines)).1, ?_⟩
  exact (setDedup_sublist [] (validLines lines)).trans (List.filter_sublist lines)

/-- Witness for C4 at a concrete input list. -/
theorem readProxies_valid_nodup_witness :
    matchProxyLine (jsTrim "9.9.9.9:3128") = true ∧
    (parseProxies ["9.9.9.9:3128", "bad-entry", "9.9.9.9:3128"]).Nodup :=
  ⟨(readProxies_valid_nodup ["9.9.9.9:3128", "bad-entry", "9.9.9.9:3128"]).1
      "9.9.9.9:3128" (by decide),
   (readProxies_valid_nodup ["9.9.9.9:3128", "bad-entry", "9.9.9.9:3128"]).2.1⟩

/-! ### Claim C5 -/

/-- Claim C5 counterexample: the port group of the regex is [0-9]{1,5}, so a
candidate with port 99999 passes validation although 99999 exceeds 65535. -/
theorem parser_accepts_port_99999 :
    parseProxies ["1.2.3.4:99999"] = ["1.2.3.4:99999"] ∧
    proxyPort "1.2.3.4:99999" = "99999" ∧
    digitsToNat (proxyPort "1.2.3.4:99999").data = 99999 ∧
    ¬ digitsToNat (proxyPort "1.2.3.4:99999").data ≤ 65535 := by decide

/-- Claim C5 amended: for every candidate kept by the parser, the trimmed
form matches the pattern, its four host octets each have numeric value at
most 255, and its port is a 1-5 digit number, hence at most 99999 (not
necessarily at most 65535). -/
theorem readProxies_candidate_ranges (lines : List String) (p : String)
    (hp : p ∈ parseProxies lines) :
    matchProxyLine (jsTrim p) = true ∧
    digitsToNat (proxyPort (jsTrim p)).data ≤ 99999 ∧
    ∀ oct ∈ splitChar '.' (proxyHost (jsTrim p)).data, digitsToNat oct ≤ 255 := by
  have hline := mem_parseProxies_valid hp
  obtain ⟨ip, port, hsp, ⟨a, b, c, d, hip, ha, hb, hc, hd⟩, hport⟩ :=
    matchProxyLine_parts hline
  refine ⟨hline, ?_, ?_⟩
  · have hpp : proxyPort (jsTrim p) = String.mk port := by
      unfold proxyPort jsSplit
      rw [hsp]
      rfl
    rw [hpp]
    exact matchPort_le hport
  · have hph : proxyHost (jsTrim p) = String.mk ip := by
      unfold proxyHost jsSplit
      rw [hsp]
      rfl
    rw [hph]
    show ∀ oct ∈ splitChar '.' ip, digitsToNat oct ≤ 255
    rw [hip]
    intro oct hoct
    simp only [List.mem_cons, List.not_mem_nil, or_false] at hoct
    rcases hoct with rfl | rfl | rfl | rfl
    · exact matchOctet_le ha
    · exact matchOctet_le hb
    · exact matchOctet_le hc
    · exact matchOctet_le hd

/-- Witness for C5 at a concrete candidate. -/
theorem readProxies_candidate_ranges_witness :
    matchProxyLine (jsTrim "10.20.30.40:8080") = true ∧
    digitsToNat (proxyPort (jsTrim "10.20.30.40:8080")).data ≤ 99999 :=
  ⟨(readProxies_candidate_ranges ["10.20.30.40:8080"] "10.20.30.40:8080" (by decide)).1,
   (readProxies_candidate_ranges ["10.20.30.40:8080"] "10.20.30.40:8080"
      (by decide)).2.1⟩

/-! ### Claim C6 -/

/-- Claim C6 (the code contradicts the documented intent): the constructor
computes options.strictEnforceTimeout with a JavaScript or-default of true,
which evaluates to true for every possible option value — in particular for
an explicit false. Hence the lenient policy can never be selected and the
unconditional abort timer of verifyProxy is armed on every probe of every
run, although the -s command line flag and the constructor comment present
strict enforcement as an opt-in choice. -/
theorem strict_timeout_forced :
    (∀ opt, strictEnforceTimeout opt = true) ∧
    strictEnforceTimeout (some false) = true ∧
    abortTimerArmed (some false) = true := by
  refine ⟨fun opt => ?_, rfl, rfl⟩
  cases opt with
  | none => rfl
  | some b => simp [strictEnforceTimeout]

/-! ### Claim C7 -/

/-- Claim C7: on reaching done == total, a run with no success reports the
non-fatal no-proxies-verified outcome and writes no output artifact, while a
run with at least one success saves the verified proxies in the order their
probes completed (not input order) with the mean latency taken over the
successful probes only. -/
theorem finalize_report (c : Nat) (ps : List String) (msgs : List ProbeMsg)
    (_hm : msgs.length = ps.length) :
    (successes msgs = [] → finalize (run c ps msgs) = FinalAction.noneVerified) ∧
    (successes msgs ≠ [] →
      finalize (run c ps msgs) =
        FinalAction.saved
          (((successes msgs).map (fun m => (m.latency : ℚ))).sum /
            ((successes msgs).length : ℚ))
          ((successes msgs).map ProbeMsg.proxy)) := by
  obtain ⟨_, a2, _, a4, a5⟩ := run_agg msgs (initState c ps)
  have h2 : (initState c ps).good = 0 := rfl
  have h4 : (initState c ps).verified = [] := rfl
  have h5 : (initState c ps).responses = [] := rfl
  rw [h2] at a2
  rw [h4] at a4
  rw [h5] at a5
  have hg : (run c ps msgs).good = (successes msgs).length := by
    show (msgs.foldl step (initState c ps)).good = _
    rw [a2]
    omega
  have hv : (run c ps msgs).verified = (successes msgs).map ProbeMsg.proxy := by
    show (msgs.foldl step (initState c ps)).verified = _
    rw [a4]
    simp
  have hr : (run c ps msgs).responses = (successes msgs).map ProbeMsg.latency := by
    show (msgs.foldl step (initState c ps)).responses = _
    rw [a5]
    simp
  constructor
  · intro hempty
    have hlt : (run c ps msgs).good < 1 := by
      rw [hg, hempty]
      simp
    unfold finalize
    rw [if_pos hlt]
  · intro hne
    have hge : ¬ (run c ps msgs).good < 1 := by
      rw [hg]
      have := List.length_pos.mpr hne
      omega
    unfold finalize
    rw [if_neg hge, hg, hv, hr, List.map_map]
    rfl

/-- Witness for C7: a completed run with one success and one failure saves
exactly the successful proxy with its latency as the mean. -/
theorem finalize_report_witness :
    finalize (run 2 sampleProxies2 sampleMsgs) =
      FinalAction.saved
        (((successes sampleMsgs).map (fun m => (m.latency : ℚ))).sum /
          ((successes sampleMsgs).length : ℚ))
        ((successes sampleMsgs).map ProbeMsg.proxy) :=
  (finalize_report 2 sampleProxies2 sampleMsgs (by decide)).2 (by decide)

/-! ### Claim C8 -/

/-- Claim C8 counterexample: a readable input whose parse yields zero valid
candidates does NOT produce a run-level failure — readProxies returns false
(and main aborts) only when the input path is unreadable. With zero
candidates no probe is dispatched, but no failure is reported either. -/
theorem no_input_not_escalated :
    parseProxies ["not-a-proxy"] = [] ∧
    runFails (some ["not-a-proxy"]) = false ∧
    probesStarted 120 (some ["not-a-proxy"]) = 0 := by decide

/-- Claim C8 amended: the only run-level failure is an unreadable input
path; when a readable input parses to zero candidates, no probe is ever
dispatched but the run does not report a failure. -/
theorem run_failure_only_unreadable (c : Nat) (input : Option (List String)) :
    (runFails input = true ↔ input = none) ∧
    (∀ lines, input = some lines → parseProxies lines = [] →
      probesStarted c input = 0) := by
  constructor
  · cases input with
    | none => simp [runFails, readProxiesRun]
    | some lines => simp [runFails, readProxiesRun]
  · rintro lines rfl hpl
    show (initState c (parseProxies lines)).issued.length = 0
    rw [hpl]
    simp [initState, startLoop_eq]

/-- Witness for C8 at a concrete unparseable input. -/
theorem run_failure_only_unreadable_witness :
    (runFails (some ["garbage"]) = true ↔ (some ["garbage"] : Option (List String)) = none) ∧
    probesStarted 120 (some ["garbage"]) = 0 :=
  ⟨(run_failure_only_unreadable 120 (some ["garbage"])).1,
   (run_failure_only_unreadable 120 (some ["garbage"])).2 ["garbage"] rfl (by decide)⟩

/-! ### Claim C9 -/

/-- Claim C9 counterexample: the request options set path to the WHOLE
target url (absolute form, as a proxy request), not to the path component of
the target url, so the request-line path differs from url.parse(url).path;
the Host header is the target hostname and the connection goes to the proxy
host and port. -/
theorem request_line_full_url :
    (buildRequest "http://digg.com/" "1.2.3.4:8080").path = "http://digg.com/" ∧
    urlPath "http://digg.com/" = "/" ∧
    (buildRequest "http://digg.com/" "1.2.3.4:8080").path ≠ urlPath "http://digg.com/" ∧
    (buildRequest "http://digg.com/" "1.2.3.4:8080").hostHeader = "digg.com" ∧
    (buildRequest "http://digg.com/" "1.2.3.4:8080").host = "1.2.3.4" ∧
    (buildRequest "http://digg.com/" "1.2.3.4:8080").port = "8080" := by decide

/-- Claim C9 amended: every probe issues a GET whose connection host and
port are the two halves of the proxy string, whose Host header is the
hostname parsed from the target url (not the proxy), and whose request-line
path is the full target url rather than only its path component. -/
theorem request_shape (target host port : String)
    (hh : (':' : Char) ∉ host.data) (hp : (':' : Char) ∉ port.data) :
    (buildRequest target (host ++ ":" ++ port)).method = "GET" ∧
    (buildRequest target (host ++ ":" ++ port)).host = host ∧
    (buildRequest target (host ++ ":" ++ port)).port = port ∧
    (buildRequest target (host ++ ":" ++ port)).path = target ∧
    (buildRequest target (host ++ ":" ++ port)).hostHeader = urlHostname target := by
  have hdata : (host ++ ":" ++ port).data = host.data ++ ':' :: port.data := by
    rw [data_append, data_append]
    simp
  have hsp : splitChar ':' (host ++ ":" ++ port).data = [host.data, port.data] := by
    rw [hdata, splitChar_sep_append ':' host.data port.data hh,
      splitChar_no_sep ':' port.data hp]
  refine ⟨rfl, ?_, ?_, rfl, rfl⟩
  · show proxyHost (host ++ ":" ++ port) = host
    unfold proxyHost jsSplit
    rw [hsp]
    show String.mk host.data = host
    exact mk_data host
  · show proxyPort (host ++ ":" ++ port) = port
    unfold proxyPort jsSplit
    rw [hsp]
    show String.mk port.data = port
    exact mk_data port

/-- Witness for C9 at the default target url and a concrete proxy. -/
theorem request_shape_witness :
    (buildRequest "http://digg.com/" ("1.2.3.4" ++ ":" ++ "8080")).host = "1.2.3.4" ∧
    (buildRequest "http://digg.com/" ("1.2.3.4" ++ ":" ++ "8080")).path =
      "http://digg.com/" :=
  ⟨(request_shape "http://digg.com/" "1.2.3.4" "8080" (by decide) (by decide)).2.1,
   (request_shape "http://digg.com/" "1.2.3.4" "8080" (by decide) (by decide)).2.2.2.1⟩

/-! ### Claim C10 -/

/-- Claim C10 counterexample: the constructor does raise a configured
concurrentRequests of 1 with 4 workers up to 4, but the in-flight limit a
run actually uses is then clamped down to the candidate count, so a run over
2 candidates uses limit 2, below the worker count 4. -/
theorem effective_limit_below_workers :
    effectiveWorkers (some 4) 8 = 4 ∧
    effectiveConcurrent (some 4) (some 1) 8 = 4 ∧
    clampConcurrency (effectiveConcurrent (some 4) (some 1) 8)
      (["1.1.1.1:80", "2.2.2.2:80"].length) = 2 ∧
    (initState (effectiveConcurrent (some 4) (some 1) 8)
      ["1.1.1.1:80", "2.2.2.2:80"]).issued.length = 2 ∧
    ¬ 4 ≤ 2 := by decide

/-- Claim C10 amended: the constructor caps the worker count at 4 and then
silently raises any smaller configured concurrentRequests up to the worker
count (so configuring C=1 with 4 workers yields 4); during a run this limit
is additionally clamped to the candidate count and can therefore drop below
the worker count only when fewer candidates than workers exist. -/
theorem constructor_concurrency_floor (ow oc : Option Nat) (cpus : Nat) :
    effectiveWorkers ow cpus ≤ 4 ∧
    effectiveWorkers ow cpus ≤ effectiveConcurrent ow oc cpus ∧
    effectiveConcurrent (some 4) (some 1) cpus = 4 ∧
    ∀ n, clampConcurrency (effectiveConcurrent ow oc cpus) n =
      min (effectiveConcurrent ow oc cpus) n := by
  refine ⟨?_, ?_, rfl, fun n => clampConcurrency_eq_min _ n⟩
  · simp only [effectiveWorkers]
    split <;> omega
  · simp only [effectiveConcurrent]
    split <;> omega

end ProxyVerify
